import Mathlib

/-!
Verification of the asgrids agent communication and allocation-protocol
subsystem.  The definitions below are a shallow embedding of the Python
sources: `sens/network_allocator.py` (NetworkAllocator), `sins.py`
(Agent, NetworkAllocator prototype, NetworkLoad) and
`sens/async_communication.py` (AsyncCommunication).  Python dictionaries
are modelled as association lists with string keys, simpy timeout
processes as explicit timer records with a status, and the discrete-event
clock as a natural-number time that fires due timers when advanced.
-/

/-- Allocation record `{allocation_id, value, duration}` from the data model
(`defs.py` Allocation / the sins dict `{allocation_id, allocation_value,
duration}`). -/
structure Allocation where
  aid : Nat
  value : Int
  duration : Nat
deriving DecidableEq, Repr

/-- A packet payload: the allocator stores whatever payload a packet carried
(`None` for payload-less packets), so the stored value is optional. -/
abbrev Payload := Option Allocation

/-- Modelled from the spec: `sens/defs.py` (EventId) is not in the sources.
Per the spec, an EventId is derived from the semantically relevant fields of
the outstanding request: allocation id + destination node for allocation
timeouts, "stop" + destination node for stop timeouts. -/
inductive EventId where
  | allocEv (aid : Nat) (node : String)
  | stopEv (node : String)
deriving DecidableEq, Repr

/-- Wire packet, after `sens/defs.py` Packet usage in
`sens/network_allocator.py`: a type string, source, destination and an
optional Allocation payload. -/
structure Packet where
  ptype : String
  src : String
  dst : String
  payload : Payload
deriving DecidableEq, Repr

/-- Association-list lookup, modelling Python `d[k]` / `k in d`. -/
def alookup {α : Type} : List (String × α) → String → Option α
  | [], _ => none
  | (k, v) :: rest, key => if k = key then some v else alookup rest key

/-- Association-list update, modelling Python `d[k] = v` (keys are unique in
a dict, so replacing the first occurrence is dict assignment). -/
def aset {α : Type} : List (String × α) → String → α → List (String × α)
  | [], key, v => [(key, v)]
  | (k, w) :: rest, key, v =>
      if k = key then (key, v) :: rest else (k, w) :: aset rest key v

/-- Association-list pop, modelling Python `d.pop(k, None)`: returns the
table without the key together with the removed value, or the unchanged
table and `none`. -/
def apop {α : Type} : List (String × α) → String → List (String × α) × Option α
  | [], _ => ([], none)
  | (k, w) :: rest, key =>
      if k = key then (rest, some w)
      else
        let r := apop rest key
        ((k, w) :: r.1, r.2)

/-- The allocator's NodeRecord table `self.nodes`: node id to last stored
payload. -/
abbrev NodeTable := List (String × Payload)

/-- Observable effects of `NetworkAllocator.add_node`, in execution order:
an `allocation_updated` callback invocation and a store into `self.nodes`. -/
inductive AEffect where
  | cbCall (alloc : Payload) (nid : String)
  | storeNode (nid : String) (alloc : Payload)
deriving DecidableEq, Repr

/-- Effect trace of `NetworkAllocator.add_node`
(`sens/network_allocator.py` lines 59-79): if `nid` is already a key and the
new allocation differs from the stored one, invoke `allocation_updated`
(when a callback is registered) and then overwrite; if it is equal, do
nothing; if `nid` is new, store it. -/
def add_node_effects (hasCb : Bool) (nodes : NodeTable) (nid : String)
    (alloc : Payload) : List AEffect :=
  match alookup nodes nid with
  | some old =>
      if alloc ≠ old then
        (if hasCb then [AEffect.cbCall alloc nid] else [])
          ++ [AEffect.storeNode nid alloc]
      else []
  | none => [AEffect.storeNode nid alloc]

/-- Replay the store effects of an `add_node` trace onto the node table. -/
def applyEffects (nodes : NodeTable) : List AEffect → NodeTable
  | [] => nodes
  | AEffect.cbCall _ _ :: rest => applyEffects nodes rest
  | AEffect.storeNode nid a :: rest => applyEffects (aset nodes nid a) rest

/-- `NetworkAllocator.add_node`, as the resulting node table. -/
def add_node (hasCb : Bool) (nodes : NodeTable) (nid : String)
    (alloc : Payload) : NodeTable :=
  applyEffects nodes (add_node_effects hasCb nodes nid alloc)

/-- `NetworkAllocator.remove_node` (`sens/network_allocator.py` lines
81-90): `self.nodes.pop(nid, None)`, returning the new table and the removed
entry (`none` when the key was absent). -/
def remove_node (nodes : NodeTable) (nid : String) :
    NodeTable × Option Payload :=
  apop nodes nid

lemma alookup_aset_self {α : Type} (l : List (String × α)) (k : String)
    (v : α) : alookup (aset l k v) k = some v := by
  induction l with
  | nil => simp [aset, alookup]
  | cons hd tl ih =>
      obtain ⟨k0, v0⟩ := hd
      by_cases h : k0 = k
      · simp [aset, h, alookup]
      · simp [aset, h, alookup, ih]

lemma alookup_add_node (hasCb : Bool) (nodes : NodeTable) (nid : String)
    (a : Payload) : alookup (add_node hasCb nodes nid a) nid = some a := by
  unfold add_node add_node_effects
  cases h : alookup nodes nid with
  | some old =>
      by_cases he : a = old
      · simp [he, h, applyEffects]
      · cases hasCb <;> simp [he, h, applyEffects, alookup_aset_self]
  | none => simp [h, applyEffects, alookup_aset_self]

lemma apop_absent {α : Type} (l : List (String × α)) (k : String)
    (h : alookup l k = none) : apop l k = (l, none) := by
  induction l with
  | nil => simp [apop]
  | cons hd tl ih =>
      obtain ⟨k0, v0⟩ := hd
      by_cases hk : k0 = k
      · simp [alookup, hk] at h
      · simp [alookup, hk] at h
        simp [apop, hk, ih h]

/-- C5: re-adding a node whose stored allocation equals the argument is a
silent no-op: the node table is returned unchanged (same size, same entry)
and the effect trace is empty, so `allocation_updated` is never invoked,
whether or not a callback is registered. -/
theorem add_node_idempotent (hasCb : Bool) (nodes : NodeTable) (nid : String)
    (a : Payload) (h : alookup nodes nid = some a) :
    add_node hasCb nodes nid a = nodes
      ∧ add_node_effects hasCb nodes nid a = [] := by
  have he : add_node_effects hasCb nodes nid a = [] := by
    simp [add_node_effects, h]
  exact ⟨by simp [add_node, he, applyEffects], he⟩

theorem add_node_idempotent_witness :
    alookup [("n1", (some ⟨1, 10, 5⟩ : Payload))] "n1" = some (some ⟨1, 10, 5⟩)
      ∧ (add_node true [("n1", (some ⟨1, 10, 5⟩ : Payload))] "n1"
            (some ⟨1, 10, 5⟩)
          = [("n1", (some ⟨1, 10, 5⟩ : Payload))]
        ∧ add_node_effects true [("n1", (some ⟨1, 10, 5⟩ : Payload))] "n1"
            (some ⟨1, 10, 5⟩) = []) :=
  ⟨by decide,
   add_node_idempotent true [("n1", some ⟨1, 10, 5⟩)] "n1" (some ⟨1, 10, 5⟩)
     (by decide)⟩

/-- C6: re-adding a known node with a different allocation while a callback
is registered produces exactly the trace "one `allocation_updated` call with
the new allocation and the node id, then the store", so the callback runs
exactly once with those arguments and before the overwrite, and afterwards
the table stores the new allocation for that node. -/
theorem add_node_updates (nodes : NodeTable) (nid : String) (a b : Payload)
    (ha : alookup nodes nid = some a) (hne : b ≠ a) :
    add_node_effects true nodes nid b
        = [AEffect.cbCall b nid, AEffect.storeNode nid b]
      ∧ alookup (add_node true nodes nid b) nid = some b := by
  have he : add_node_effects true nodes nid b
      = [AEffect.cbCall b nid, AEffect.storeNode nid b] := by
    simp [add_node_effects, ha, hne]
  refine ⟨he, ?_⟩
  simp [add_node, he, applyEffects, alookup_aset_self]

theorem add_node_updates_witness :
    alookup [("n1", (some ⟨1, 10, 5⟩ : Payload))] "n1" = some (some ⟨1, 10, 5⟩)
      ∧ (some ⟨2, 20, 5⟩ : Payload) ≠ some ⟨1, 10, 5⟩
      ∧ (add_node_effects true [("n1", (some ⟨1, 10, 5⟩ : Payload))] "n1"
            (some ⟨2, 20, 5⟩)
          = [AEffect.cbCall (some ⟨2, 20, 5⟩) "n1",
             AEffect.storeNode "n1" (some ⟨2, 20, 5⟩)]
        ∧ alookup (add_node true [("n1", (some ⟨1, 10, 5⟩ : Payload))] "n1"
            (some ⟨2, 20, 5⟩)) "n1" = some (some ⟨2, 20, 5⟩)) :=
  ⟨by decide, by decide,
   add_node_updates [("n1", some ⟨1, 10, 5⟩)] "n1" (some ⟨1, 10, 5⟩)
     (some ⟨2, 20, 5⟩) (by decide) (by decide)⟩

/-- C8: removing a node id that is not in the NodeRecord table returns an
absent result and leaves the table unchanged; the operation is total (it
cannot raise). -/
theorem remove_node_absent (nodes : NodeTable) (nid : String)
    (h : alookup nodes nid = none) :
    remove_node nodes nid = (nodes, none) := by
  simp [remove_node, apop_absent nodes nid h]

theorem remove_node_absent_witness :
    alookup [("n1", (some ⟨1, 10, 5⟩ : Payload))] "n2" = none
      ∧ remove_node [("n1", (some ⟨1, 10, 5⟩ : Payload))] "n2"
          = ([("n1", (some ⟨1, 10, 5⟩ : Payload))], none) :=
  ⟨by decide,
   remove_node_absent [("n1", some ⟨1, 10, 5⟩)] "n2" (by decide)⟩

/-- Status of a scheduled timeout process: still pending, interrupted before
its deadline (its expiry action never runs), or fired (its expiry action
ran). -/
inductive TimerStat where
  | live
  | interrupted
  | fired
deriving DecidableEq, Repr

/-- A timeout process as created by `Agent.create_timeout`: a unique process
id, the EventId it was registered under, its absolute deadline on the
simulated clock, and its status.  `κ` is the EventId type (`EventId` for the
sens allocator, `String` for the sins md5-keyed prototype). -/
structure Timer (κ : Type) where
  tid : Nat
  eid : κ
  deadline : Nat
  stat : TimerStat
deriving DecidableEq, Repr

/-- Advance the clock to time `t`: every still-live timer whose deadline has
been reached fires (its expiry action runs).  Interrupted timers never fire:
interruption is not the same as firing. -/
def fireDue {κ : Type} (ts : List (Timer κ)) (t : Nat) : List (Timer κ) :=
  ts.map (fun tm =>
    if tm.stat = TimerStat.live ∧ tm.deadline ≤ t then
      { tm with stat := TimerStat.fired }
    else tm)

/-- Find a timer by its process id (first match). -/
def findTimer {κ : Type} : List (Timer κ) → Nat → Option (Timer κ)
  | [], _ => none
  | tm :: rest, tid => if tm.tid = tid then some tm else findTimer rest tid

/-- Actions the sens allocator hands to `Agent.schedule` in
`receive_handle`. -/
inductive SchedKind where
  | sendJoinAck (dst : String)
  | removeNode (nid : String)
  | stopNetwork
deriving DecidableEq, Repr

/-- State of a sens `NetworkAllocator` (fields of `__init__` plus the
simulated clock and the observable outputs): `nodes` is the NodeRecord
table, `allocTimeouts` is `self.alloc_timeouts` mapping a node id to the
timeout process last stored for it, `timers` holds every created timeout
process, `hasCb`/`cbCalls` model the optional `allocation_updated` callback
and its invocations, `sent` the packets handed to `self.send`, `scheduled`
the actions handed to `self.schedule`, and `stopped` whether `self.stop()`
has run (tearing down Scheduler and Transport). -/
structure AllocState where
  time : Nat
  nodes : NodeTable
  allocTimeouts : List (String × Nat)
  timers : List (Timer EventId)
  nextTid : Nat
  hasCb : Bool
  cbCalls : List (Payload × String)
  sent : List Packet
  scheduled : List SchedKind
  localAddr : String
  allocAckTimeout : Nat
  stopAckTimeout : Nat
  stopped : Bool
deriving DecidableEq, Repr

/-- A fresh sens `NetworkAllocator` (`__init__`): empty tables, ack timeout
2, stop-ack timeout 5. -/
def initAllocState (localA : String) : AllocState :=
  { time := 0, nodes := [], allocTimeouts := [], timers := [], nextTid := 0,
    hasCb := false, cbCalls := [], sent := [], scheduled := [],
    localAddr := localA, allocAckTimeout := 2, stopAckTimeout := 5,
    stopped := false }

/-- Advance the state's clock to `t`, firing due live timers. -/
def advanceTo (s : AllocState) (t : Nat) : AllocState :=
  { s with time := t, timers := fireDue s.timers t }

/-- `self.add_node(nid, allocation)` at the state level: updates `nodes` and
records the `allocation_updated` invocations. -/
def doAddNode (s : AllocState) (nid : String) (alloc : Payload) :
    AllocState :=
  let effs := add_node_effects s.hasCb s.nodes nid alloc
  { s with
      nodes := applyEffects s.nodes effs,
      cbCalls := s.cbCalls ++ effs.filterMap (fun e =>
        match e with
        | AEffect.cbCall a n => some (a, n)
        | AEffect.storeNode _ _ => none) }

/-- Modelled from the spec: `interrupt()` on a timeout process (the simpy
process object stored in `self.alloc_timeouts`) — `sens/agent.py` is not in
the sources.  Per the spec's Scheduler contract, interrupting a pending
timer cancels it before it fires and an interrupted timer never invokes its
expiry action. -/
def interruptTimer (s : AllocState) (tid : Nat) : AllocState :=
  { s with timers := s.timers.map (fun tm =>
      if tm.tid = tid ∧ tm.stat = TimerStat.live then
        { tm with stat := TimerStat.interrupted }
      else tm) }

/-- Modelled from the spec: `Agent.remove_timeout(eid)` of the missing
`sens/agent.py` — per the spec's `cancelTimeout(eventId)`: a no-op if absent,
otherwise it interrupts the pending timer registered under that EventId
before it fires. -/
def remove_timeout (s : AllocState) (eid : EventId) : AllocState :=
  { s with timers := s.timers.map (fun tm =>
      if tm.eid = eid ∧ tm.stat = TimerStat.live then
        { tm with stat := TimerStat.interrupted }
      else tm) }

/-- `Agent.create_timeout` as used by the sens allocator: registers a fresh
timeout process with the given EventId and relative deadline and returns its
process id.  Following the only `create_timeout` in the sources
(`sins.py` lines 79-89), it creates the new timer without consulting or
cancelling any existing one. -/
def create_timeout (s : AllocState) (eid : EventId) (timeout : Nat) :
    AllocState × Nat :=
  ({ s with
      timers := s.timers
        ++ [{ tid := s.nextTid, eid := eid, deadline := s.time + timeout,
              stat := TimerStat.live }],
      nextTid := s.nextTid + 1 }, s.nextTid)

/-- `NetworkAllocator.send_allocation` (`sens/network_allocator.py` lines
92-109): build the allocation packet, create a timeout under EventId
(allocation, nid), store the timeout process in `alloc_timeouts[nid]`
(overwriting any previous one for that node), then send the packet. -/
def send_allocation (s : AllocState) (nid : String) (alloc : Allocation) :
    AllocState :=
  let packet : Packet :=
    { ptype := "allocation", src := s.localAddr, dst := nid,
      payload := some alloc }
  let r := create_timeout s (EventId.allocEv alloc.aid nid) s.allocAckTimeout
  let s1 := r.1
  { s1 with
      allocTimeouts := aset s1.allocTimeouts nid r.2,
      sent := s1.sent ++ [packet] }

/-- `NetworkAllocator.receive_handle` (`sens/network_allocator.py` lines
23-57).  The `allocation_ack` branch reads `self.alloc_timeouts[p.src]`,
which raises `KeyError` when `p.src` has no entry; the error value models
that exception.  The `stop_ack` branch swallows any `remove_timeout`
exception and then calls `remove_node` on the resolved source. -/
def receive_handle (s : AllocState) (p : Packet) (srcArg : Option String) :
    Except String AllocState :=
  let src := srcArg.getD p.src
  if p.ptype = "join" then
    let s1 := doAddNode s p.src p.payload
    Except.ok { s1 with scheduled := s1.scheduled ++ [SchedKind.sendJoinAck p.src] }
  else if p.ptype = "allocation_ack" then
    let s1 := doAddNode s p.src p.payload
    match alookup s1.allocTimeouts p.src with
    | some tid => Except.ok (interruptTimer s1 tid)
    | none => Except.error "KeyError"
  else if p.ptype = "leave" then
    Except.ok { s with scheduled := s.scheduled ++ [SchedKind.removeNode p.src] }
  else if p.ptype = "stop" then
    Except.ok { s with scheduled := s.scheduled ++ [SchedKind.stopNetwork] }
  else if p.ptype = "stop_ack" then
    let s1 := remove_timeout s (EventId.stopEv p.src)
    Except.ok { s1 with nodes := (remove_node s1.nodes src).1 }
  else if p.ptype = "curr_allocation" then
    Except.ok (doAddNode s p.src p.payload)
  else
    Except.ok s

/-- An `allocation_ack` packet from node `srcN` to the allocator at `dstA`,
acknowledging allocation `a` (the Load echoes the allocation as payload). -/
def ackPacket (srcN dstA : String) (a : Allocation) : Packet :=
  { ptype := "allocation_ack", src := srcN, dst := dstA, payload := some a }

/-- Protocol-level events driving a run of the allocator: the allocator
sends an allocation, or an `allocation_ack` arrives and is handled.  Each
event is tagged with its simulated time; the clock is advanced (firing due
timers) before the event is processed, so an ack arriving strictly before a
deadline is handled while that timer is still live, and a tie goes to the
ack. -/
inductive SimEvent where
  | sendAlloc (nid : String) (alloc : Allocation)
  | recvAck (srcN : String) (alloc : Allocation)
deriving DecidableEq, Repr

/-- Run a timed event list against the allocator state. -/
def runEvents : AllocState → List (Nat × SimEvent) → Except String AllocState
  | s, [] => Except.ok s
  | s, (t, ev) :: rest =>
    let s1 := advanceTo s t
    match ev with
    | SimEvent.sendAlloc nid a => runEvents (send_allocation s1 nid a) rest
    | SimEvent.recvAck srcN a =>
        match receive_handle s1 (ackPacket srcN s1.localAddr a) none with
        | Except.ok s2 => runEvents s2 rest
        | Except.error e => Except.error e

lemma findTimer_tid {κ : Type} (ts : List (Timer κ)) (tid : Nat)
    (tm : Timer κ) (h : findTimer ts tid = some tm) : tm.tid = tid := by
  induction ts with
  | nil => simp [findTimer] at h
  | cons hd tl ih =>
      by_cases hh : hd.tid = tid
      · simp [findTimer, hh] at h
        rw [← h]; exact hh
      · simp [findTimer, hh] at h
        exact ih h

lemma findTimer_map {κ : Type} (f : Timer κ → Timer κ)
    (hf : ∀ tm, (f tm).tid = tm.tid) (ts : List (Timer κ)) (tid : Nat) :
    findTimer (ts.map f) tid = (findTimer ts tid).map f := by
  induction ts with
  | nil => rfl
  | cons hd tl ih =>
      by_cases hh : hd.tid = tid
      · simp [findTimer, hf, hh]
      · simp [findTimer, hf, hh, ih]

lemma fireDue_keeps_interrupted {κ : Type} (ts : List (Timer κ)) (tid : Nat)
    (tm : Timer κ) (T : Nat)
    (h : findTimer ts tid = some tm) (hi : tm.stat = TimerStat.interrupted) :
    findTimer (fireDue ts T) tid = some tm := by
  have hpres : ∀ u : Timer κ,
      ((if u.stat = TimerStat.live ∧ u.deadline ≤ T then
          { u with stat := TimerStat.fired } else u)).tid = u.tid := by
    intro u; by_cases hu : u.stat = TimerStat.live ∧ u.deadline ≤ T <;>
      simp [hu]
  rw [fireDue, findTimer_map _ hpres, h]
  simp [hi]

lemma interruptTimer_findTimer (s : AllocState) (tid : Nat)
    (tm : Timer EventId) (h : findTimer s.timers tid = some tm)
    (hlive : tm.stat = TimerStat.live) :
    findTimer (interruptTimer s tid).timers tid
      = some { tm with stat := TimerStat.interrupted } := by
  have hpres : ∀ u : Timer EventId,
      ((if u.tid = tid ∧ u.stat = TimerStat.live then
          { u with stat := TimerStat.interrupted } else u)).tid = u.tid := by
    intro u; by_cases hu : u.tid = tid ∧ u.stat = TimerStat.live <;> simp [hu]
  have htid := findTimer_tid s.timers tid tm h
  rw [interruptTimer]
  show findTimer (s.timers.map _) tid = _
  rw [findTimer_map _ hpres, h]
  simp [htid, hlive]

/-- C1 counterexample: send allocation 1 to node "n" at time 0 (its timeout,
keyed by (allocation id 1, "n"), has deadline 2), send allocation 2 to "n"
at time 1 (overwriting `alloc_timeouts["n"]`), and let the ack for
allocation 1 arrive at time 1 — strictly before its matching timeout's
deadline 2.  After the ack, the timer keyed (1, "n") is still live (the
handler interrupted the newer timer stored under "n" instead), and once the
clock passes the deadline its expiry action fires. -/
theorem allocation_ack_keying_cex :
    (runEvents (initAllocState "alloc")
        [(0, SimEvent.sendAlloc "n" ⟨1, 10, 5⟩),
         (1, SimEvent.sendAlloc "n" ⟨2, 20, 5⟩),
         (1, SimEvent.recvAck "n" ⟨1, 10, 5⟩)]).toOption.map
      (fun s => (findTimer s.timers 0,
                 (findTimer (advanceTo s 10).timers 0).map Timer.stat))
    = some (some ⟨0, EventId.allocEv 1 "n", 2, TimerStat.live⟩,
            some TimerStat.fired) := by decide

/-- C1 (amended): when `receive_handle` processes an `allocation_ack` from
`src` while `alloc_timeouts[src]` holds a still-live timeout process — in
particular whenever the ack arrives strictly before that timeout's deadline,
since advancing the clock to a time before the deadline leaves the timer
live — the handler succeeds, its resulting NodeRecord table is exactly the
`add_node` upsert of the ack's payload for `src` (so `src` afterwards maps
to that payload), and it interrupts the stored timeout process (the one for
the most recently sent allocation to `src`, regardless of the ack's
allocation id); the interrupted timer never fires: its expiry action never
runs, however far the clock advances afterwards. -/
theorem allocation_ack_interrupts (s : AllocState) (p : Packet) (tid : Nat)
    (tm : Timer EventId)
    (hty : p.ptype = "allocation_ack")
    (hl : alookup s.allocTimeouts p.src = some tid)
    (htm : findTimer s.timers tid = some tm)
    (hlive : tm.stat = TimerStat.live) :
    ∃ s', receive_handle s p none = Except.ok s'
      ∧ s'.nodes = add_node s.hasCb s.nodes p.src p.payload
      ∧ alookup s'.nodes p.src = some p.payload
      ∧ findTimer s'.timers tid
          = some { tm with stat := TimerStat.interrupted }
      ∧ ∀ T, findTimer (advanceTo s' T).timers tid
          = some { tm with stat := TimerStat.interrupted } := by
  have hat : (doAddNode s p.src p.payload).allocTimeouts = s.allocTimeouts :=
    rfl
  have hts : (doAddNode s p.src p.payload).timers = s.timers := rfl
  have hnd : (interruptTimer (doAddNode s p.src p.payload) tid).nodes
      = add_node s.hasCb s.nodes p.src p.payload := rfl
  refine ⟨interruptTimer (doAddNode s p.src p.payload) tid, ?_, hnd, ?_, ?_,
    ?_⟩
  · simp [receive_handle, hty, hat, hl]
  · rw [hnd, alookup_add_node]
  · have := interruptTimer_findTimer (doAddNode s p.src p.payload) tid tm
      (by rw [hts]; exact htm) hlive
    exact this
  · intro T
    have hfi := interruptTimer_findTimer (doAddNode s p.src p.payload) tid tm
      (by rw [hts]; exact htm) hlive
    exact fireDue_keeps_interrupted _ tid _ T hfi rfl

/-- A concrete allocator state with one live allocation timeout for node
"n": process id 0, EventId (allocation 1, "n"), deadline 2, registered under
`alloc_timeouts["n"]`, clock at time 1. -/
def ackWitnessState : AllocState :=
  { initAllocState "alloc" with
      time := 1,
      timers := [⟨0, EventId.allocEv 1 "n", 2, TimerStat.live⟩],
      allocTimeouts := [("n", 0)],
      nextTid := 1 }

theorem allocation_ack_interrupts_witness :
    ∃ s', receive_handle ackWitnessState
            (ackPacket "n" "alloc" ⟨1, 10, 5⟩) none = Except.ok s'
      ∧ s'.nodes = add_node ackWitnessState.hasCb ackWitnessState.nodes "n"
          (some ⟨1, 10, 5⟩)
      ∧ alookup s'.nodes "n" = some (some ⟨1, 10, 5⟩)
      ∧ findTimer s'.timers 0
          = some ⟨0, EventId.allocEv 1 "n", 2, TimerStat.interrupted⟩
      ∧ ∀ T, findTimer (advanceTo s' T).timers 0
          = some ⟨0, EventId.allocEv 1 "n", 2, TimerStat.interrupted⟩ :=
  allocation_ack_interrupts ackWitnessState (ackPacket "n" "alloc" ⟨1, 10, 5⟩)
    0 ⟨0, EventId.allocEv 1 "n", 2, TimerStat.live⟩ rfl (by decide)
    (by decide) rfl

/-- C9: handling an `allocation_ack` whose source has no entry in
`alloc_timeouts` raises `KeyError` (the handler does not complete); when an
entry is present the handler completes normally; and `send_allocation` to a
node is exactly what establishes that node's `alloc_timeouts` entry, so
under the precondition that an allocation was previously sent to the source
the error branch is unreachable. -/
theorem allocation_ack_keyerror (s : AllocState) (p : Packet)
    (hty : p.ptype = "allocation_ack") :
    (alookup s.allocTimeouts p.src = none →
        receive_handle s p none = Except.error "KeyError")
      ∧ (∀ tid, alookup s.allocTimeouts p.src = some tid →
          ∃ s', receive_handle s p none = Except.ok s')
      ∧ ∀ nid a, alookup (send_allocation s nid a).allocTimeouts nid
          = some s.nextTid := by
  have hat : (doAddNode s p.src p.payload).allocTimeouts = s.allocTimeouts :=
    rfl
  refine ⟨?_, ?_, ?_⟩
  · intro h
    simp [receive_handle, hty, hat, h]
  · intro tid h
    refine ⟨interruptTimer (doAddNode s p.src p.payload) tid, ?_⟩
    simp [receive_handle, hty, hat, h]
  · intro nid a
    have : (send_allocation s nid a).allocTimeouts
        = aset s.allocTimeouts nid s.nextTid := rfl
    rw [this, alookup_aset_self]

theorem allocation_ack_keyerror_witness :
    (alookup (initAllocState "alloc").allocTimeouts "n0" = none →
        receive_handle (initAllocState "alloc")
          (ackPacket "n0" "alloc" ⟨1, 10, 5⟩) none
          = Except.error "KeyError")
      ∧ (∀ tid, alookup (initAllocState "alloc").allocTimeouts "n0"
            = some tid →
          ∃ s', receive_handle (initAllocState "alloc")
              (ackPacket "n0" "alloc" ⟨1, 10, 5⟩) none = Except.ok s')
      ∧ ∀ nid a,
          alookup (send_allocation (initAllocState "alloc") nid a).allocTimeouts
            nid = some (initAllocState "alloc").nextTid :=
  allocation_ack_keyerror (initAllocState "alloc")
    (ackPacket "n0" "alloc" ⟨1, 10, 5⟩) rfl

/-- C10: a packet whose type is none of the eight Envelope types is ignored
by the allocator's `receive_handle`: the state (NodeRecord table,
`alloc_timeouts`, timers, scheduled actions, sent packets) is returned
entirely unchanged. -/
theorem receive_handle_frame (s : AllocState) (p : Packet) (o : Option String)
    (h : p.ptype ∉ ["join", "join_ack", "allocation", "allocation_ack",
        "leave", "curr_allocation", "stop", "stop_ack"]) :
    receive_handle s p o = Except.ok s := by
  simp only [List.mem_cons, List.not_mem_nil, or_false, not_or] at h
  obtain ⟨h1, h2, h3, h4, h5, h6, h7, h8⟩ := h
  simp [receive_handle, h1, h4, h5, h6, h7, h8]

/-- The `stop` packet `stop_network` sends to one node. -/
def stopPacket (localA node : String) : Packet :=
  { ptype := "stop", src := localA, dst := node, payload := none }

/-- One iteration of the `for node in list(self.nodes)` loop of
`NetworkAllocator.stop_network` (`sens/network_allocator.py` lines 132-139):
send a `stop` packet to the node, then create a stop-ack timeout under
EventId ("stop", node) with deadline `stop_ack_timeout` from now. -/
def sendStopTo (s : AllocState) (node : String) : AllocState :=
  let s1 := { s with sent := s.sent ++ [stopPacket s.localAddr node] }
  (create_timeout s1 (EventId.stopEv node) s1.stopAckTimeout).1

/-- The stop-ack timers the loop creates: one per node key, consecutive
process ids starting at `tid0`, all with deadline `t0 + dt` and live. -/
def stopTimers (keys : List String) (tid0 t0 dt : Nat) :
    List (Timer EventId) :=
  match keys with
  | [] => []
  | n :: rest =>
      { tid := tid0, eid := EventId.stopEv n, deadline := t0 + dt,
        stat := TimerStat.live } :: stopTimers rest (tid0 + 1) t0 dt

/-- `NetworkAllocator.stop_network` (`sens/network_allocator.py` lines
123-145): loop over the current nodes sending `stop` and registering a
stop-ack timeout each, then busy-poll `len(self.nodes) == 0`; only when the
table is empty does the loop break and `self.stop()` run (the `stopped`
flag, modelled from the spec for the missing `sens/agent.py` teardown of
Scheduler and Transport).  In the single-threaded embedding a non-empty
table means the busy-wait never exits, so the state is returned with
`stopped` unchanged. -/
def stop_network (s : AllocState) : AllocState :=
  let s1 := (s.nodes.map Prod.fst).foldl sendStopTo s
  if s1.nodes.isEmpty then { s1 with stopped := true } else s1

lemma foldl_sendStopTo (keys : List String) (s : AllocState) :
    (keys.foldl sendStopTo s).sent
        = s.sent ++ keys.map (stopPacket s.localAddr)
      ∧ (keys.foldl sendStopTo s).timers
        = s.timers ++ stopTimers keys s.nextTid s.time s.stopAckTimeout
      ∧ (keys.foldl sendStopTo s).nodes = s.nodes
      ∧ (keys.foldl sendStopTo s).stopped = s.stopped := by
  induction keys generalizing s with
  | nil => simp [stopTimers]
  | cons n rest ih =>
      obtain ⟨ih1, ih2, ih3, ih4⟩ := ih (sendStopTo s n)
      have e1 : (sendStopTo s n).sent = s.sent ++ [stopPacket s.localAddr n] :=
        rfl
      have e2 : (sendStopTo s n).timers
          = s.timers
            ++ [{ tid := s.nextTid, eid := EventId.stopEv n,
                  deadline := s.time + s.stopAckTimeout,
                  stat := TimerStat.live }] := rfl
      have e3 : (sendStopTo s n).localAddr = s.localAddr := rfl
      have e4 : (sendStopTo s n).nextTid = s.nextTid + 1 := rfl
      have e5 : (sendStopTo s n).time = s.time := rfl
      have e6 : (sendStopTo s n).stopAckTimeout = s.stopAckTimeout := rfl
      have e7 : (sendStopTo s n).nodes = s.nodes := rfl
      have e8 : (sendStopTo s n).stopped = s.stopped := rfl
      refine ⟨?_, ?_, ?_, ?_⟩
      · rw [List.foldl_cons, ih1, e1, e3]
        simp [List.map_cons]
      · rw [List.foldl_cons, ih2, e2, e4, e5, e6]
        simp [stopTimers]
      · rw [List.foldl_cons, ih3, e7]
      · rw [List.foldl_cons, ih4, e8]

/-- C7: `stop_network` sends exactly one `stop` packet to each node in the
NodeRecord table and registers exactly one live stop-ack timeout per node
(EventId ("stop", node), deadline `stop_ack_timeout` from now, consecutive
process ids), it leaves the table itself unchanged, and it stops the
Scheduler and Transport exactly when the table is empty — never while some
node remains present. -/
theorem stop_network_spec (s : AllocState) (hs : s.stopped = false) :
    (stop_network s).sent
        = s.sent ++ (s.nodes.map Prod.fst).map (stopPacket s.localAddr)
      ∧ (stop_network s).timers
        = s.timers
          ++ stopTimers (s.nodes.map Prod.fst) s.nextTid s.time
              s.stopAckTimeout
      ∧ (stop_network s).nodes = s.nodes
      ∧ ((stop_network s).stopped = true ↔ s.nodes = []) := by
  obtain ⟨h1, h2, h3, h4⟩ :=
    foldl_sendStopTo (s.nodes.map Prod.fst) s
  have hsn : stop_network s
      = if ((s.nodes.map Prod.fst).foldl sendStopTo s).nodes.isEmpty then
          { (s.nodes.map Prod.fst).foldl sendStopTo s with stopped := true }
        else (s.nodes.map Prod.fst).foldl sendStopTo s := rfl
  by_cases hnil : s.nodes = []
  · have he : ((s.nodes.map Prod.fst).foldl sendStopTo s).nodes.isEmpty
        = true := by
      rw [h3, hnil]; rfl
    rw [hsn, if_pos he]
    exact ⟨h1, h2, h3, by simp [hnil]⟩
  · have he : ¬(((s.nodes.map Prod.fst).foldl sendStopTo s).nodes.isEmpty
        = true) := by
      rw [h3]
      intro hc
      exact hnil (List.isEmpty_iff.mp hc)
    rw [hsn, if_neg he]
    exact ⟨h1, h2, h3, by simp [h4, hs, hnil]⟩

theorem stop_network_spec_witness :
    ((initAllocState "alloc").stopped = false)
      ∧ ((stop_network (initAllocState "alloc")).sent
          = (initAllocState "alloc").sent
            ++ ((initAllocState "alloc").nodes.map Prod.fst).map
                (stopPacket (initAllocState "alloc").localAddr)
        ∧ (stop_network (initAllocState "alloc")).timers
          = (initAllocState "alloc").timers
            ++ stopTimers ((initAllocState "alloc").nodes.map Prod.fst)
                (initAllocState "alloc").nextTid (initAllocState "alloc").time
                (initAllocState "alloc").stopAckTimeout
        ∧ (stop_network (initAllocState "alloc")).nodes
          = (initAllocState "alloc").nodes
        ∧ ((stop_network (initAllocState "alloc")).stopped = true
            ↔ (initAllocState "alloc").nodes = [])) :=
  ⟨rfl, stop_network_spec (initAllocState "alloc") rfl⟩

/-- Scheduler state of a sins `Agent` (`sins.py` lines 15-94): the clock
and the timeout processes created so far.  In the sins prototype EventIds
are md5 hex strings, so timers are keyed by `String`.  The `self.timeouts`
dict is filled by callers, never by `create_timeout` itself. -/
structure SinsAgentState where
  time : Nat
  live : List (Timer String)
  nextTid : Nat
deriving DecidableEq, Repr

/-- `Agent.create_timeout` (`sins.py` lines 79-89): create a fresh event,
attach the expiry message and `cancel_timeout` callbacks, and schedule its
firing `timeout` time units from now; return the scheduled process.  It
reads neither `self.timeouts` nor any existing timer: no cancellation of a
previously registered timer for the same event id happens.  The unused
argument mirrors the `msg` parameter, which only affects the log line
printed at expiry. -/
def sins_create_timeout (s : SinsAgentState) (timeout : Nat)
    (eventId : String) (_msg : String) : SinsAgentState × Nat :=
  ({ s with
      live := s.live
        ++ [{ tid := s.nextTid, eid := eventId, deadline := s.time + timeout,
              stat := TimerStat.live }],
      nextTid := s.nextTid + 1 }, s.nextTid)

/-- C2 counterexample: with a live timeout for event id "e" (deadline 2),
`create_timeout` is called again for "e" (deadline 3).  The old timer is not
cancelled — it is still live right after the call — and once the clock
reaches 5 both timers have fired, so it is not true that only the most
recently registered timer for the EventId can fire. -/
theorem create_timeout_no_cancel_cex :
    (sins_create_timeout ⟨0, [⟨0, "e", 2, TimerStat.live⟩], 1⟩ 3 "e"
        "").1.live
      = [⟨0, "e", 2, TimerStat.live⟩, ⟨1, "e", 3, TimerStat.live⟩]
    ∧ fireDue
        ((sins_create_timeout ⟨0, [⟨0, "e", 2, TimerStat.live⟩], 1⟩ 3 "e"
          "").1.live) 5
      = [⟨0, "e", 2, TimerStat.fired⟩, ⟨1, "e", 3, TimerStat.fired⟩] := by
  decide

/-- C2 (amended): `create_timeout` never cancels anything: it appends a
fresh live timer and leaves every existing timer untouched, so a live timer
for the same event id stays live, and once the clock passes both deadlines
both the old and the new timer have fired — there is no
last-writer-wins. -/
theorem create_timeout_no_cancel (s : SinsAgentState) (t : Nat)
    (eventId : String) (tm : Timer String) (T : Nat)
    (hmem : tm ∈ s.live) (hlive : tm.stat = TimerStat.live)
    (hT1 : tm.deadline ≤ T) (hT2 : s.time + t ≤ T) :
    (sins_create_timeout s t eventId "").1.live
        = s.live
          ++ [⟨s.nextTid, eventId, s.time + t, TimerStat.live⟩]
      ∧ ({ tm with stat := TimerStat.fired } : Timer String)
          ∈ fireDue ((sins_create_timeout s t eventId "").1.live) T
      ∧ (⟨s.nextTid, eventId, s.time + t, TimerStat.fired⟩ : Timer String)
          ∈ fireDue ((sins_create_timeout s t eventId "").1.live) T := by
  refine ⟨rfl, ?_, ?_⟩
  · have hm : tm ∈ (sins_create_timeout s t eventId "").1.live :=
      List.mem_append_left _ hmem
    have := List.mem_map_of_mem (fun u : Timer String =>
      if u.stat = TimerStat.live ∧ u.deadline ≤ T then
        { u with stat := TimerStat.fired } else u) hm
    simpa [fireDue, hlive, hT1] using this
  · have hm : (⟨s.nextTid, eventId, s.time + t, TimerStat.live⟩ :
        Timer String) ∈ (sins_create_timeout s t eventId "").1.live :=
      List.mem_append_right _ (by simp)
    have := List.mem_map_of_mem (fun u : Timer String =>
      if u.stat = TimerStat.live ∧ u.deadline ≤ T then
        { u with stat := TimerStat.fired } else u) hm
    simpa [fireDue, hT2] using this

theorem create_timeout_no_cancel_witness :
    ((⟨0, "e", 2, TimerStat.live⟩ : Timer String)
        ∈ (⟨0, [⟨0, "e", 2, TimerStat.live⟩], 1⟩ : SinsAgentState).live)
      ∧ ((sins_create_timeout ⟨0, [⟨0, "e", 2, TimerStat.live⟩], 1⟩ 3 "f"
            "").1.live
          = [⟨0, "e", 2, TimerStat.live⟩]
            ++ [⟨1, "f", 3, TimerStat.live⟩]
        ∧ ({ (⟨0, "e", 2, TimerStat.live⟩ : Timer String) with
              stat := TimerStat.fired } : Timer String)
            ∈ fireDue
              ((sins_create_timeout ⟨0, [⟨0, "e", 2, TimerStat.live⟩], 1⟩ 3
                "f" "").1.live) 7
        ∧ (⟨1, "f", 3, TimerStat.fired⟩ : Timer String)
            ∈ fireDue
              ((sins_create_timeout ⟨0, [⟨0, "e", 2, TimerStat.live⟩], 1⟩ 3
                "f" "").1.live) 7) :=
  ⟨by decide,
   create_timeout_no_cancel ⟨0, [⟨0, "e", 2, TimerStat.live⟩], 1⟩ 3 "f"
     ⟨0, "e", 2, TimerStat.live⟩ 7 (by decide) rfl (by decide) (by decide)⟩

/-- Message dict received by the sins `NetworkLoad`: a `msg_type` string
and an optional allocation. -/
structure LoadMsg where
  mtype : String
  allocation : Payload
deriving DecidableEq, Repr

/-- Observable effects of the sins `NetworkLoad`, in execution order: a
direct `self.comm.send`, a scheduled `send_ack` or `allocation_handle`
action with its relative delay, and the Transport teardown steps of
`NetworkLoad.stop` (`self.comm.stop()` then `self.comm.join()`). -/
inductive LoadEffect where
  | commSend (mtype : String) (dst : String)
  | schedSendAck (dst : String) (delay : Nat)
  | schedAllocationHandle (delay : Nat)
  | commStop
  | commJoin
deriving DecidableEq, Repr

/-- `NetworkLoad.stop` (`sins.py` lines 338-346): stop the communication
thread and join it.  No packet is sent and the Scheduler is left as is. -/
def load_stop : List LoadEffect :=
  [LoadEffect.commStop, LoadEffect.commJoin]

/-- `NetworkLoad.receive_handle` (`sins.py` lines 254-283) as its effect
trace: `join_ack` returns immediately; `allocation` schedules `send_ack`
(delay 0) and `allocation_handle` (delay 1); `stop` calls `self.stop()`
directly. -/
def load_receive_handle (m : LoadMsg) (src : String) : List LoadEffect :=
  if m.mtype = "join_ack" then []
  else
    (if m.mtype = "allocation" then
      [LoadEffect.schedSendAck src 0, LoadEffect.schedAllocationHandle 1]
     else [])
    ++ (if m.mtype = "stop" then load_stop else [])

/-- C3: handling a `stop` message makes the Load tear down its Transport
immediately — the effect trace is exactly `comm.stop(); comm.join()` — and
no send of any kind (in particular no `stop_ack`) is issued before or during
the teardown. -/
theorem load_stop_no_stop_ack (src : String) (pl : Payload) :
    load_receive_handle ⟨"stop", pl⟩ src = load_stop
      ∧ ∀ mt dst,
          LoadEffect.commSend mt dst ∉ load_receive_handle ⟨"stop", pl⟩ src
      ∧ ∀ d t, LoadEffect.schedSendAck d t
          ∉ load_receive_handle ⟨"stop", pl⟩ src := by
  constructor
  · simp [load_receive_handle]
  · intro mt dst
    constructor
    · simp [load_receive_handle, load_stop]
    · intro d t
      simp [load_receive_handle, load_stop]

/-- An asyncio DEALER socket as observed by `_send`: its id, the identity
set on it via `setsockopt`, and whether it has been closed. -/
structure Socket where
  sid : Nat
  sockIdentity : Option String
  closed : Bool
deriving DecidableEq, Repr

/-- State of `AsyncCommunication` relevant to `_send`: the construction-time
identity, the `self._client` attribute (absent before the first send) and a
fresh-socket counter. -/
structure CommState where
  identity : Option String
  client : Option Socket
  nextSid : Nat
deriving DecidableEq, Repr

/-- `AsyncCommunication.__init__` (`sens/async_communication.py` lines
21-40): stores the identity; `self._client` is never assigned. -/
def initCommState (ident : Option String) : CommState :=
  { identity := ident, client := none, nextSid := 0 }

/-- Errors `_send` can raise before any bytes go out: the Python
`AttributeError` from reading `self._client` before it is ever assigned, and
the `zmq.ZMQError` that `setsockopt` raises on a closed socket (re-raised by
the handler in `_send`). -/
inductive SendError where
  | attributeError
  | zmqError
deriving DecidableEq, Repr

/-- What actually went over the wire: which socket transmitted and the
identity that was set on that socket at transmission time. -/
structure Transmission where
  socketUsed : Nat
  identityOnSocket : Option String
deriving DecidableEq, Repr

/-- `AsyncCommunication._send` (`sens/async_communication.py` lines 51-82),
for a packable request and a reachable remote.  Statement order follows the
source: when an identity is configured, `self._client.setsockopt(IDENTITY,
...)` runs first — raising `AttributeError` if `_client` was never assigned
(and since the assignment only comes later, `_client` stays unassigned), and
raising `ZMQError` if the stored socket is closed (a previous send closed it
and the `except zmq.ZMQError` clause re-raises).  Only a still-open stored
socket would receive the identity; after that, `self._client` is replaced by
a fresh DEALER socket, which connects, transmits the bytes with whatever
identity it has (none), and is closed. -/
def commSend (s : CommState) : Except SendError (CommState × Transmission) :=
  match s.identity with
  | some i =>
      match s.client with
      | none => Except.error SendError.attributeError
      | some old =>
          if old.closed then Except.error SendError.zmqError
          else
            let _old2 := { old with sockIdentity := some i }
            let fresh : Socket :=
              { sid := s.nextSid, sockIdentity := none, closed := false }
            Except.ok
              ({ s with
                  client := some { fresh with closed := true },
                  nextSid := s.nextSid + 1 },
               { socketUsed := fresh.sid,
                 identityOnSocket := fresh.sockIdentity })
  | none =>
      let fresh : Socket :=
        { sid := s.nextSid, sockIdentity := none, closed := false }
      Except.ok
        ({ s with
            client := some { fresh with closed := true },
            nextSid := s.nextSid + 1 },
         { socketUsed := fresh.sid, identityOnSocket := fresh.sockIdentity })

/-- C4: with a configured identity `_send` never behaves as claimed: the
very first call fails with `AttributeError` (`self._client` has never been
assigned, and since the assignment sits after the failing statement this
repeats on every call); if a socket from a completed previous send is
stored, it is closed, so the `setsockopt` on it fails with `ZMQError` and
the send does not complete; and whenever a send does complete, the fresh
socket that transmitted carried no identity at all. -/
theorem send_identity_bug (s : CommState) (i : String)
    (hid : s.identity = some i) :
    (s.client = none → commSend s = Except.error SendError.attributeError)
      ∧ (∀ old, s.client = some old → old.closed = true →
          commSend s = Except.error SendError.zmqError)
      ∧ ∀ s2 tr, commSend s = Except.ok (s2, tr) →
          tr.identityOnSocket = none := by
  refine ⟨?_, ?_, ?_⟩
  · intro h
    simp [commSend, hid, h]
  · intro old h hc
    simp [commSend, hid, h, hc]
  · intro s2 tr h
    cases hc : s.client with
    | none => simp [commSend, hid, hc] at h
    | some old =>
        by_cases hcl : old.closed = true
        · simp [commSend, hid, hc, hcl] at h
        · simp [commSend, hid, hc, hcl] at h
          rw [← h.2]

/-- A transport with identity "load1" whose `_client` holds the socket left
by a hypothetical completed previous send: closed, no identity. -/
def closedClientState : CommState :=
  { identity := some "load1",
    client := some { sid := 0, sockIdentity := none, closed := true },
    nextSid := 1 }

theorem send_identity_bug_witness :
    (((initCommState (some "load1")).client = none →
          commSend (initCommState (some "load1"))
            = Except.error SendError.attributeError)
        ∧ (∀ old, (initCommState (some "load1")).client = some old →
            old.closed = true →
            commSend (initCommState (some "load1"))
              = Except.error SendError.zmqError)
        ∧ ∀ s2 tr,
            commSend (initCommState (some "load1")) = Except.ok (s2, tr) →
            tr.identityOnSocket = none)
      ∧ ((closedClientState.client = none →
          commSend closedClientState
            = Except.error SendError.attributeError)
        ∧ (∀ old, closedClientState.client = some old → old.closed = true →
            commSend closedClientState = Except.error SendError.zmqError)
        ∧ ∀ s2 tr, commSend closedClientState = Except.ok (s2, tr) →
            tr.identityOnSocket = none) :=
  ⟨send_identity_bug (initCommState (some "load1")) "load1" rfl,
   send_identity_bug closedClientState "load1" rfl⟩

theorem receive_handle_frame_witness :
    (("bogus" : String) ∉ ["join", "join_ack", "allocation",
        "allocation_ack", "leave", "curr_allocation", "stop", "stop_ack"])
      ∧ receive_handle (initAllocState "alloc")
          { ptype := "bogus", src := "n0", dst := "alloc", payload := none }
          none
        = Except.ok (initAllocState "alloc") :=
  ⟨by decide,
   receive_handle_frame (initAllocState "alloc")
     { ptype := "bogus", src := "n0", dst := "alloc", payload := none }
     none (by decide)⟩
